import Mathlib

/-!
Shallow embedding of the vibefit orchestration core (aspect-ratio
classifier, structured-text parser, response extractor, fallback
orchestrators and pipeline coordinator), translated from
`src/utils.ts`, `src/services/geminiService.ts`, `src/server.js`,
`src/api/*.js` and `src/App.tsx`, together with theorems settling the
specification claims about them.
-/

namespace Vibefit

/-- Supported aspect ratios (`AspectRatio` enumeration from `src/types.ts`,
in the enumeration order used by `getClosestAspectRatio`). -/
inductive AspectRatio where
  | SQUARE
  | PORTRAIT_3_4
  | PORTRAIT_9_16
  | LANDSCAPE_4_3
  | LANDSCAPE_16_9
deriving DecidableEq, Repr

/-- Image quality knob for the primary generation model (`ImageSize`). -/
inductive ImageSize where
  | K1
  | K2
  | K4
deriving DecidableEq, Repr

/-- The target-ratio table built inside `getClosestAspectRatio`
(`src/utils.ts` lines 45-51), in source order. -/
def aspectTargets : List (AspectRatio × ℚ) :=
  [(AspectRatio.SQUARE, 1),
   (AspectRatio.PORTRAIT_3_4, 3/4),
   (AspectRatio.PORTRAIT_9_16, 9/16),
   (AspectRatio.LANDSCAPE_4_3, 4/3),
   (AspectRatio.LANDSCAPE_16_9, 16/9)]

/-- The reduce callback of `getClosestAspectRatio`: keep whichever of
`prev`/`curr` has target value strictly closer to `ratio` (strict `<`,
so `prev` — the earlier candidate — wins ties). -/
def closerTo (ratio : ℚ) (prev curr : AspectRatio × ℚ) : AspectRatio × ℚ :=
  if |curr.2 - ratio| < |prev.2 - ratio| then curr else prev

/-- Exact-rational idealization of `getClosestAspectRatio` from
`src/utils.ts`: `ratio = width / height`, then a JavaScript `reduce`
without initial value over `aspectTargets` (accumulator starts at the
first element, iteration starts at the second). The empty-list branch is
unreachable: the source list is a non-empty literal. The source computes
with IEEE binary64 doubles, which agrees with this idealization except
where rounding breaks an exact near-tie; `getClosestAspectRatioFP` below
models the double-precision arithmetic itself. -/
def getClosestAspectRatio (width height : ℚ) : AspectRatio :=
  let ratio := width / height
  let closest :=
    match aspectTargets with
    | [] => (AspectRatio.SQUARE, 1)
    | first :: rest => rest.foldl (closerTo ratio) first
  closest.1


/-- Literal label of section A in the first regular expression of
`parseAnalysisResult` (`src/utils.ts`), whose lazy capture group runs from
this label to the next `---` delimiter. -/
def labelA : String := "\u2705 A) TRY-ON PREVIEW IMAGE INSTRUCTIONS"

/-- Literal label of section B. -/
def labelB : String := "\u2705 B) STYLING RECOMMENDATIONS"

/-- Literal label of section C (its capture runs to end of input). -/
def labelC : String := "\u2705 C) JSON FOR DEVELOPERS"

/-- Characters of `l` strictly before the first occurrence of `sep`;
`none` when `sep` never occurs (the lazy capture `([\\s\\S]*?)---` fails). -/
def takeUntil (sep : List Char) : List Char → Option (List Char)
  | [] => if sep.isPrefixOf ([] : List Char) then some [] else none
  | c :: rest =>
    if sep.isPrefixOf (c :: rest) then some []
    else (takeUntil sep rest).map (fun l => c :: l)

/-- JavaScript `text.match(/label([\\s\\S]*?)sep/)` capture group: scan for
the first position where `label` matches and `sep` occurs afterwards;
capture what stands between them. A failing start position is abandoned
and the scan resumes one character further (regex backtracking). -/
def matchSection (label sep : List Char) : List Char → Option (List Char)
  | [] => none
  | c :: rest =>
    if label.isPrefixOf (c :: rest) then
      match takeUntil sep ((c :: rest).drop label.length) with
      | some cap => some cap
      | none => matchSection label sep rest
    else matchSection label sep rest

/-- JavaScript `text.match(/label([\\s\\S]*?)$/)` capture group: everything
after the first occurrence of `label`, to end of input. -/
def matchToEnd (label : List Char) : List Char → Option (List Char)
  | [] => none
  | c :: rest =>
    if label.isPrefixOf (c :: rest) then some ((c :: rest).drop label.length)
    else matchToEnd label rest

/-- Result record of `parseAnalysisResult`: note that `technicalJson` is
`string | null` in the source, so it is an `Option` here. -/
structure AnalysisResult where
  instructions : String
  styling : String
  technicalJson : Option String
deriving DecidableEq, Repr

/-- `parseAnalysisResult` from `src/utils.ts` lines 17-27: three
independent regex extractions; captured spans are trimmed; a failed match
for A or B falls back to a fixed string, a failed match for C falls back
to `null`. -/
def parseAnalysisResult (text : String) : AnalysisResult :=
  { instructions :=
      ((matchSection labelA.toList "---".toList text.toList).map
        (fun cs => (String.mk cs).trim)).getD
        "Analysis failed to produce instructions."
    styling :=
      ((matchSection labelB.toList "---".toList text.toList).map
        (fun cs => (String.mk cs).trim)).getD
        "No styling advice available."
    technicalJson :=
      (matchToEnd labelC.toList text.toList).map (fun cs => (String.mk cs).trim) }

/-- An inline binary payload inside a response content part. -/
structure InlineData where
  mimeType : String
  data : String
deriving DecidableEq, Repr

/-- One content part of a model response or request: text and/or an inline
binary payload. -/
structure Part where
  text : Option String
  inlineData : Option InlineData
deriving DecidableEq, Repr

/-- The `content` object of a response candidate. -/
structure Content where
  parts : List Part
deriving DecidableEq, Repr

/-- One candidate completion; `content` may be absent. -/
structure Candidate where
  content : Option Content
deriving DecidableEq, Repr

/-- A generation response: a list of candidates ("no candidates" is the
empty list). -/
structure GenResponse where
  candidates : List Candidate
deriving DecidableEq, Repr

/-- The loop range `response.candidates?.[0]?.content?.parts || []` of
`extractImage`. -/
def partsOf (r : GenResponse) : List Part :=
  match r.candidates with
  | [] => []
  | c :: _ =>
    match c.content with
    | none => []
    | some ct => ct.parts

/-- The `for` loop of `extractImage`: the first part carrying an inline
payload is returned as a data URI whose MIME type is hard-coded to
`image/png`; the payload's own `mimeType` field is never read. -/
def extractImageAux : List Part → Option String
  | [] => none
  | p :: rest =>
    match p.inlineData with
    | some d => some ("data:image/png;base64," ++ d.data)
    | none => extractImageAux rest

/-- `extractImage` from `src/services/geminiService.ts` lines 82-89 (the
identical helper also appears in `src/server.js` and
`src/api/generate-image.js`). -/
def extractImage (r : GenResponse) : Option String :=
  extractImageAux (partsOf r)

/-- Concrete part: a PNG payload with base64 content `"QQ=="`. -/
def pngPart : Part :=
  { text := none, inlineData := some { mimeType := "image/png", data := "QQ==" } }

/-- Concrete response whose first candidate's first part is `pngPart`. -/
def pngResponse : GenResponse :=
  { candidates := [{ content := some { parts := [pngPart] } }] }

/-- Concrete response whose payload declares MIME `image/jpeg`. -/
def jpegResponse : GenResponse :=
  { candidates := [{ content := some { parts :=
      [{ text := none,
         inlineData := some { mimeType := "image/jpeg", data := "QQ==" } }] } }] }

/-- Rewrite every declared MIME type in a response through `g`, leaving all
payload data unchanged. -/
def mapMimePart (g : String → String) (p : Part) : Part :=
  { p with
    inlineData := p.inlineData.map (fun d => { d with mimeType := g d.mimeType }) }

/-- Rewrite every declared MIME type of every candidate through `g`. -/
def mapMimeResponse (g : String → String) (r : GenResponse) : GenResponse :=
  { candidates := r.candidates.map (fun c =>
      { content := c.content.map (fun ct =>
          { parts := ct.parts.map (mapMimePart g) }) }) }


/-- The error object observed in a `catch` block: optional HTTP status,
optional error code, optional message. -/
structure ApiError where
  status : Option Nat
  code : Option Nat
  message : Option String
deriving DecidableEq, Repr

/-- JavaScript `error.message?.includes(s)`: `false` when `message` is
absent, otherwise a substring test. -/
def msgIncludes (e : ApiError) (s : String) : Bool :=
  match e.message with
  | none => false
  | some m => decide (s.toList <:+: m.toList)

/-- The fallback trigger shared by the generation paths and the backend
chat handlers: status or code 403 or 404, or a message containing
`"PERMISSION_DENIED"` or `"not found"` (`src/services/geminiService.ts`
line 123-124, `src/server.js`, `src/api/generate-image.js`,
`src/api/chat.js`). -/
def isCapabilityError (e : ApiError) : Bool :=
  e.status == some 403 || e.code == some 403 ||
    msgIncludes e "PERMISSION_DENIED" ||
  e.status == some 404 || e.code == some 404 ||
    msgIncludes e "not found"

/-- The narrower fallback trigger of the frontend service's `chatWithBot`
(`src/services/geminiService.ts` line 237): only status or code 403, or a
message containing `"PERMISSION_DENIED"` — no 404 and no `"not found"`
clause. -/
def isCapabilityError403 (e : ApiError) : Bool :=
  e.status == some 403 || e.code == some 403 ||
    msgIncludes e "PERMISSION_DENIED"

/-- Configuration of a generation request: `imageConfig` with the aspect
ratio and, for the primary model only, the quality knob. -/
structure ImageConfig where
  aspectRatio : AspectRatio
  imageSize : Option ImageSize
deriving DecidableEq, Repr

/-- A generation request as issued to the remote capability. -/
structure GenRequest where
  model : String
  parts : List Part
  config : ImageConfig
deriving DecidableEq, Repr

/-- Outcome of one remote generation call. -/
inductive ApiOutcome where
  | success (resp : GenResponse)
  | failure (e : ApiError)
deriving DecidableEq, Repr

/-- Terminal result of the generation orchestrator: a data URI, or a
thrown error. -/
inductive GenResult where
  | image (dataUri : String)
  | error (e : ApiError)
deriving DecidableEq, Repr

/-- The content parts shared by the primary and fallback generation
requests: the prompt text plus the user image as inline JPEG data. -/
def genParts (prompt userImageBase64 : String) : List Part :=
  [{ text := some prompt, inlineData := none },
   { text := none,
     inlineData := some { mimeType := "image/jpeg", data := userImageBase64 } }]

/-- The primary generation request (`gemini-3-pro-image-preview`):
configuration carries the aspect ratio and the quality knob. -/
def primaryGenRequest (prompt userImageBase64 : String)
    (ar : AspectRatio) (size : ImageSize) : GenRequest :=
  { model := "gemini-3-pro-image-preview"
    parts := genParts prompt userImageBase64
    config := { aspectRatio := ar, imageSize := some size } }

/-- The fallback generation request (`gemini-2.5-flash-image`): same
parts, configuration carries only the aspect ratio — `imageSize` is
dropped. -/
def fallbackGenRequest (prompt userImageBase64 : String)
    (ar : AspectRatio) : GenRequest :=
  { model := "gemini-2.5-flash-image"
    parts := genParts prompt userImageBase64
    config := { aspectRatio := ar, imageSize := none } }

/-- The synthetic error thrown when the primary call succeeds but no image
can be extracted: `throw new Error("No image generated from Gemini 3
Pro")`. -/
def noImageError : ApiError :=
  { status := none, code := none,
    message := some "No image generated from Gemini 3 Pro" }

/-- The `catch` block of `generateTryOnImage`
(`src/services/geminiService.ts` lines 119-157): when the error matches
the capability trigger, issue exactly one fallback request; a fallback
success with an extractable image is returned, a fallback success without
one falls through and rethrows the original error, a fallback failure is
rethrown as-is; a non-matching error is rethrown with no fallback
attempt. Returns the result together with the list of requests issued by
this block. -/
def genCatch (api : GenRequest → ApiOutcome) (prompt userImageBase64 : String)
    (ar : AspectRatio) (e : ApiError) : GenResult × List GenRequest :=
  if isCapabilityError e then
    match api (fallbackGenRequest prompt userImageBase64 ar) with
    | .success resp2 =>
      match extractImage resp2 with
      | some image => (.image image, [fallbackGenRequest prompt userImageBase64 ar])
      | none => (.error e, [fallbackGenRequest prompt userImageBase64 ar])
    | .failure e2 => (.error e2, [fallbackGenRequest prompt userImageBase64 ar])
  else (.error e, [])

/-- `generateTryOnImage` from `src/services/geminiService.ts` lines
73-158, with the remote capability abstracted as the oracle `api`. The
returned list is the sequence of requests issued. A primary success whose
response yields no extractable image throws `noImageError` into the same
`catch` block that a primary failure lands in. -/
def generateTryOnImage (api : GenRequest → ApiOutcome)
    (prompt userImageBase64 : String) (ar : AspectRatio) (size : ImageSize) :
    GenResult × List GenRequest :=
  match api (primaryGenRequest prompt userImageBase64 ar size) with
  | .success resp =>
    match extractImage resp with
    | some image => (.image image, [primaryGenRequest prompt userImageBase64 ar size])
    | none =>
      let handled := genCatch api prompt userImageBase64 ar noImageError
      (handled.1, primaryGenRequest prompt userImageBase64 ar size :: handled.2)
  | .failure e =>
    let handled := genCatch api prompt userImageBase64 ar e
    (handled.1, primaryGenRequest prompt userImageBase64 ar size :: handled.2)

/-- A tool attachable to a chat request (only Google Search occurs). -/
inductive ChatTool where
  | googleSearch
deriving DecidableEq, Repr

/-- The extended-reasoning budget flag. -/
structure ThinkingConfig where
  thinkingBudget : Nat
deriving DecidableEq, Repr

/-- Configuration of a chat request: optional tool list, optional
thinking budget. -/
structure ChatConfig where
  tools : Option (List ChatTool)
  thinkingConfig : Option ThinkingConfig
deriving DecidableEq, Repr

/-- One conversation turn: a role and text parts. -/
structure ChatTurn where
  role : String
  parts : List String
deriving DecidableEq, Repr

/-- A chat request as issued to the remote capability. -/
structure ChatRequest where
  model : String
  contents : List ChatTurn
  config : ChatConfig
deriving DecidableEq, Repr

/-- Outcome of one remote chat call (`response.text` may be absent). -/
inductive ChatOutcome where
  | success (text : Option String)
  | failure (e : ApiError)
deriving DecidableEq, Repr

/-- Terminal result of a chat orchestrator. -/
inductive ChatResult where
  | text (t : Option String)
  | error (e : ApiError)
deriving DecidableEq, Repr

/-- The contents of every chat call: the caller-supplied history plus the
new user turn. -/
def chatContents (history : List ChatTurn) (message : String) : List ChatTurn :=
  history ++ [{ role := "user", parts := [message] }]

/-- The primary chat configuration: the search tool when `useSearch` is
set (`tools.length > 0 ? tools : undefined`), the thinking budget 32768
when `useThinking` is set. -/
def primaryChatConfig (useSearch useThinking : Bool) : ChatConfig :=
  { tools := if useSearch then some [ChatTool.googleSearch] else none
    thinkingConfig :=
      if useThinking then some { thinkingBudget := 32768 } else none }

/-- The primary chat request (`gemini-3-pro-preview`). -/
def primaryChatRequest (history : List ChatTurn) (message : String)
    (useSearch useThinking : Bool) : ChatRequest :=
  { model := "gemini-3-pro-preview"
    contents := chatContents history message
    config := primaryChatConfig useSearch useThinking }

/-- The fallback chat request (`gemini-2.5-flash`): same contents, search
tool preserved, no thinking configuration. -/
def fallbackChatRequest (history : List ChatTurn) (message : String)
    (useSearch : Bool) : ChatRequest :=
  { model := "gemini-2.5-flash"
    contents := chatContents history message
    config := { tools := if useSearch then some [ChatTool.googleSearch] else none
                thinkingConfig := none } }

/-- `chatWithBot` from `src/services/geminiService.ts` lines 201-260: the
fallback fires only on the 403-or-PERMISSION_DENIED trigger; any other
failure — including status 404 — is rethrown with no fallback attempt. -/
def chatWithBot (api : ChatRequest → ChatOutcome) (history : List ChatTurn)
    (message : String) (useSearch useThinking : Bool) :
    ChatResult × List ChatRequest :=
  match api (primaryChatRequest history message useSearch useThinking) with
  | .success t => (.text t, [primaryChatRequest history message useSearch useThinking])
  | .failure e =>
    if isCapabilityError403 e then
      match api (fallbackChatRequest history message useSearch) with
      | .success t =>
        (.text t, [primaryChatRequest history message useSearch useThinking,
                   fallbackChatRequest history message useSearch])
      | .failure e2 =>
        (.error e2, [primaryChatRequest history message useSearch useThinking,
                     fallbackChatRequest history message useSearch])
    else (.error e, [primaryChatRequest history message useSearch useThinking])

/-- The chat handler of `src/server.js` (`app.post('/api/chat')`) and
`src/api/chat.js`: identical to `chatWithBot` except that the fallback
trigger also covers 404 and `"not found"`. -/
def serverChatHandler (api : ChatRequest → ChatOutcome) (history : List ChatTurn)
    (message : String) (useSearch useThinking : Bool) :
    ChatResult × List ChatRequest :=
  match api (primaryChatRequest history message useSearch useThinking) with
  | .success t => (.text t, [primaryChatRequest history message useSearch useThinking])
  | .failure e =>
    if isCapabilityError e then
      match api (fallbackChatRequest history message useSearch) with
      | .success t =>
        (.text t, [primaryChatRequest history message useSearch useThinking,
                   fallbackChatRequest history message useSearch])
      | .failure e2 =>
        (.error e2, [primaryChatRequest history message useSearch useThinking,
                     fallbackChatRequest history message useSearch])
    else (.error e, [primaryChatRequest history message useSearch useThinking])

/-- `handleGenerateProcess` from `src/App.tsx` lines 63-103, with the two
remote stages abstracted: `analyze` is the outcome of
`analyzeTryOnRequest`, `generate` the outcome of the generation call for
a given prompt. Returns the pipeline result together with the list of
prompts passed to the generation capability (its call log). The stages
run sequentially inside one `try` block: a thrown analysis error skips
generation entirely and is surfaced to the caller. -/
def handleGenerateProcess (analyze : Except ApiError String)
    (generate : String → Except ApiError String) :
    Except ApiError (AnalysisResult × String) × List String :=
  match analyze with
  | .error e => (.error e, [])
  | .ok rawAnalysis =>
    match generate (parseAnalysisResult rawAnalysis).instructions with
    | .error e => (.error e, [(parseAnalysisResult rawAnalysis).instructions])
    | .ok image =>
      (.ok (parseAnalysisResult rawAnalysis, image),
       [(parseAnalysisResult rawAnalysis).instructions])


/-- Concrete error: bare HTTP 403. -/
def err403 : ApiError := { status := some 403, code := none, message := none }

/-- Concrete error: bare HTTP 404. -/
def err404 : ApiError := { status := some 404, code := none, message := none }

/-- Concrete error: HTTP 400 with a message matching neither trigger
substring. -/
def err400 : ApiError :=
  { status := some 400, code := none, message := some "Bad Request" }

/-- Concrete generation oracle that fails every call with `err403`. -/
def apiGenFail403 : GenRequest → ApiOutcome := fun _ => .failure err403

/-- Concrete generation oracle that fails every call with `err400`. -/
def apiGenFail400 : GenRequest → ApiOutcome := fun _ => .failure err400

/-- Concrete generation oracle whose every call succeeds with a response
holding no candidates (so no extractable image). -/
def apiEmptySuccess : GenRequest → ApiOutcome :=
  fun _ => .success { candidates := [] }

/-- Concrete chat oracle: the primary model fails with a bare 404, any
other model would answer. -/
def apiChat404 : ChatRequest → ChatOutcome :=
  fun req =>
    if req.model == "gemini-3-pro-preview" then .failure err404
    else .success (some "ok")

/-- Concrete chat oracle: the primary model fails with a bare 403, any
other model answers. -/
def apiChat403 : ChatRequest → ChatOutcome :=
  fun req =>
    if req.model == "gemini-3-pro-preview" then .failure err403
    else .success (some "ok")


/-- Round-to-nearest integer with ties to even, the rounding of IEEE 754
round-to-nearest. -/
def rne (x : ℚ) : ℤ :=
  if x - ⌊x⌋ < 1/2 then ⌊x⌋
  else if 1/2 < x - ⌊x⌋ then ⌊x⌋ + 1
  else if ⌊x⌋ % 2 = 0 then ⌊x⌋ else ⌊x⌋ + 1

/-- IEEE binary64 rounding of an exact rational value: round to nearest
even with a 53-bit significand, exponent unbounded (no overflow or
subnormal handling — every value arising in this development lies well
inside binary64's normal range, where this model coincides with IEEE
doubles). -/
def floatRound (x : ℚ) : ℚ :=
  if x = 0 then 0
  else
    (if x < 0 then -1 else 1) *
      (rne (|x| * 2 ^ ((52 : ℤ) - Int.log 2 |x|)) : ℚ) * 2 ^ (Int.log 2 |x| - 52)

/-- JavaScript division of doubles: exact quotient, rounded. -/
def fpDiv (x y : ℚ) : ℚ := floatRound (x / y)

/-- JavaScript subtraction of doubles: exact difference, rounded. -/
def fpSub (x y : ℚ) : ℚ := floatRound (x - y)

/-- The target-ratio table of `getClosestAspectRatio` with its values as
the doubles the JavaScript literals denote: `1` is exact, `3/4`, `9/16`,
`4/3` and `16/9` are double divisions. -/
def aspectTargetsFP : List (AspectRatio × ℚ) :=
  [(AspectRatio.SQUARE, 1),
   (AspectRatio.PORTRAIT_3_4, fpDiv 3 4),
   (AspectRatio.PORTRAIT_9_16, fpDiv 9 16),
   (AspectRatio.LANDSCAPE_4_3, fpDiv 4 3),
   (AspectRatio.LANDSCAPE_16_9, fpDiv 16 9)]

/-- The reduce callback of `getClosestAspectRatio` under double
semantics: `Math.abs(curr.value - ratio)` is the rounded difference with
its sign removed (absolute value of a double is exact). -/
def closerToFP (ratio : ℚ) (prev curr : AspectRatio × ℚ) : AspectRatio × ℚ :=
  if |fpSub curr.2 ratio| < |fpSub prev.2 ratio| then curr else prev

/-- `getClosestAspectRatio` from `src/utils.ts` under the source's IEEE
binary64 arithmetic: `ratio` is the rounded double quotient and every
distance is a rounded double subtraction. -/
def getClosestAspectRatioFP (width height : ℚ) : AspectRatio :=
  let ratio := fpDiv width height
  let closest :=
    match aspectTargetsFP with
    | [] => (AspectRatio.SQUARE, 1)
    | first :: rest => rest.foldl (closerToFP ratio) first
  closest.1

/-- The JavaScript `reduce` with the `closerTo` callback returns an element
of `acc :: l` whose distance to `ratio` is minimal, and every element
strictly before it in the list has strictly greater distance. -/
lemma foldl_closerTo_spec (ratio : ℚ) (l : List (AspectRatio × ℚ)) :
    ∀ acc : AspectRatio × ℚ,
    ∃ l1 l2, acc :: l = l1 ++ (l.foldl (closerTo ratio) acc) :: l2 ∧
      (∀ t ∈ acc :: l,
        |(l.foldl (closerTo ratio) acc).2 - ratio| ≤ |t.2 - ratio|) ∧
      (∀ t ∈ l1,
        |(l.foldl (closerTo ratio) acc).2 - ratio| < |t.2 - ratio|) := by
  induction l with
  | nil =>
    intro acc
    exact ⟨[], [], rfl, by simp, by simp⟩
  | cons b t ih =>
    intro acc
    simp only [List.foldl_cons]
    by_cases hb : |b.2 - ratio| < |acc.2 - ratio|
    · have hstep : closerTo ratio acc b = b := by
        rw [closerTo, if_pos hb]
      rw [hstep]
      obtain ⟨l1, l2, hdec, hmin, hstrict⟩ := ih b
      refine ⟨acc :: l1, l2, ?_, ?_, ?_⟩
      · rw [List.cons_append, ← hdec]
      · intro x hx
        rcases List.mem_cons.mp hx with hx | hx
        · subst hx
          have h1 : |(t.foldl (closerTo ratio) b).2 - ratio| ≤ |b.2 - ratio| :=
            hmin b (List.mem_cons_self b t)
          linarith
        · exact hmin x hx
      · intro x hx
        rcases List.mem_cons.mp hx with hx | hx
        · subst hx
          have h1 : |(t.foldl (closerTo ratio) b).2 - ratio| ≤ |b.2 - ratio| :=
            hmin b (List.mem_cons_self b t)
          linarith
        · exact hstrict x hx
    · have hstep : closerTo ratio acc b = acc := by
        rw [closerTo, if_neg hb]
      rw [hstep]
      obtain ⟨l1, l2, hdec, hmin, hstrict⟩ := ih acc
      have hble : |acc.2 - ratio| ≤ |b.2 - ratio| := le_of_not_lt hb
      match l1, hdec with
      | [], hdec =>
        have hm : acc = t.foldl (closerTo ratio) acc :=
          (List.cons.injEq _ _ _ _ ▸ hdec).1
        refine ⟨[], b :: t, ?_, ?_, ?_⟩
        · rw [List.nil_append, ← hm]
        · intro x hx
          rcases List.mem_cons.mp hx with hx | hx
          · subst hx
            exact hmin x (List.mem_cons_self x t)
          · rcases List.mem_cons.mp hx with hx | hx
            · subst hx
              rw [← hm]
              exact hble
            · exact hmin x (List.mem_cons_of_mem acc hx)
        · intro x hx
          simp at hx
      | a :: l1', hdec =>
        have ha : a = acc := ((List.cons.injEq _ _ _ _ ▸ hdec).1).symm
        subst ha
        have ht : t = l1' ++ (t.foldl (closerTo ratio) a) :: l2 :=
          (List.cons.injEq _ _ _ _ ▸ hdec).2
        have hma : |(t.foldl (closerTo ratio) a).2 - ratio| < |a.2 - ratio| :=
          hstrict a (List.mem_cons_self a l1')
        refine ⟨a :: b :: l1', l2, ?_, ?_, ?_⟩
        · rw [List.cons_append, List.cons_append, ← ht]
        · intro x hx
          rcases List.mem_cons.mp hx with hx | hx
          · subst hx
            exact le_of_lt hma
          · rcases List.mem_cons.mp hx with hx | hx
            · subst hx
              calc |(t.foldl (closerTo ratio) a).2 - ratio|
                  ≤ |a.2 - ratio| := le_of_lt hma
                _ ≤ |x.2 - ratio| := hble
            · exact hmin x (List.mem_cons_of_mem a hx)
        · intro x hx
          rcases List.mem_cons.mp hx with hx | hx
          · subst hx
            exact hma
          · rcases List.mem_cons.mp hx with hx | hx
            · subst hx
              calc |(t.foldl (closerTo ratio) a).2 - ratio|
                  < |a.2 - ratio| := hma
                _ ≤ |x.2 - ratio| := hble
            · exact hstrict x (List.mem_cons_of_mem a hx)

/-- C8 counterexample: on the non-positive dimensions `(-1, 1)` the
classifier does not fail with any `InvalidInput` error — the source
function has no validation or error path at all and here returns the
`9:16` member. -/
theorem getClosestAspectRatio_no_validation :
    getClosestAspectRatio (-1) 1 = AspectRatio.PORTRAIT_9_16 := by
  norm_num [getClosestAspectRatio, aspectTargets, closerTo,
    List.foldl_cons, List.foldl_nil, abs_of_nonneg, abs_of_nonpos]

/-- C8 amended: `getClosestAspectRatio` is total — for any dimensions with
nonzero height, positive or not, it returns one of the five enumeration
members; the code contains no input validation and no `InvalidInput`
error. -/
theorem getClosestAspectRatio_total (w h : ℚ) (_hh : h ≠ 0) :
    ∃ t ∈ aspectTargets, getClosestAspectRatio w h = t.1 := by
  obtain ⟨l1, l2, hdec, -, -⟩ :=
    foldl_closerTo_spec (w / h)
      [(AspectRatio.PORTRAIT_3_4, 3/4), (AspectRatio.PORTRAIT_9_16, 9/16),
       (AspectRatio.LANDSCAPE_4_3, 4/3), (AspectRatio.LANDSCAPE_16_9, 16/9)]
      (AspectRatio.SQUARE, 1)
  have h1 : aspectTargets = l1 ++
      (List.foldl (closerTo (w / h)) (AspectRatio.SQUARE, 1)
        [(AspectRatio.PORTRAIT_3_4, 3/4), (AspectRatio.PORTRAIT_9_16, 9/16),
         (AspectRatio.LANDSCAPE_4_3, 4/3), (AspectRatio.LANDSCAPE_16_9, 16/9)]) :: l2 :=
    hdec
  refine ⟨List.foldl (closerTo (w / h)) (AspectRatio.SQUARE, 1)
    [(AspectRatio.PORTRAIT_3_4, 3/4), (AspectRatio.PORTRAIT_9_16, 9/16),
     (AspectRatio.LANDSCAPE_4_3, 4/3), (AspectRatio.LANDSCAPE_16_9, 16/9)], ?_, rfl⟩
  rw [h1]
  exact List.mem_append_right l1 (List.mem_cons_self _ _)

/-- C8 amended witness: totality instantiated at the non-positive input
`(-1, 1)`. -/
theorem getClosestAspectRatio_total_witness :
    ∃ t ∈ aspectTargets, getClosestAspectRatio (-1) 1 = t.1 :=
  getClosestAspectRatio_total (-1) 1 (by norm_num)

/-- A label that is not an infix of the input can match at no start
position, so the section extraction fails. -/
lemma matchSection_eq_none (label sep l : List Char)
    (h : ¬ label <:+: l) : matchSection label sep l = none := by
  induction l with
  | nil => rfl
  | cons c rest ih =>
    rw [matchSection, if_neg ?_]
    · exact ih (fun hi => h (List.infix_cons hi))
    · intro hp
      exact h (List.isPrefixOf_iff_prefix.mp hp).isInfix

/-- Same for the end-anchored section C extraction. -/
lemma matchToEnd_eq_none (label l : List Char)
    (h : ¬ label <:+: l) : matchToEnd label l = none := by
  induction l with
  | nil => rfl
  | cons c rest ih =>
    rw [matchToEnd, if_neg ?_]
    · exact ih (fun hi => h (List.infix_cons hi))
    · intro hp
      exact h (List.isPrefixOf_iff_prefix.mp hp).isInfix

/-- C6 counterexample: on the empty input (which contains none of the
three section labels) the `technicalJson` field of the parse result is
`null`, not any fallback string — refuting that all three fields take a
fixed human-readable fallback string. -/
theorem parseAnalysisResult_json_fallback_is_null :
    ¬ ∃ s : String, (parseAnalysisResult "").technicalJson = some s := by
  intro hs
  obtain ⟨s, hs⟩ := hs
  rw [show (parseAnalysisResult "").technicalJson = none from rfl] at hs
  exact Option.noConfusion hs

/-- C6 amended: `parseAnalysisResult` never fails (it is a total function
into `AnalysisResult`), and on any input containing none of the three
section labels it returns the fixed fallback strings for `instructions`
and `styling` and `null` (`none`) for `technicalJson`. -/
theorem parseAnalysisResult_missing_labels (text : String)
    (hA : ¬ labelA.toList <:+: text.toList)
    (hB : ¬ labelB.toList <:+: text.toList)
    (hC : ¬ labelC.toList <:+: text.toList) :
    parseAnalysisResult text =
      { instructions := "Analysis failed to produce instructions."
        styling := "No styling advice available."
        technicalJson := none } := by
  rw [parseAnalysisResult, matchSection_eq_none _ _ _ hA,
    matchSection_eq_none _ _ _ hB, matchToEnd_eq_none _ _ hC]
  rfl

/-- C6 amended witness: the fallback behaviour evaluated on the concrete
empty input. -/
theorem parseAnalysisResult_missing_labels_witness :
    parseAnalysisResult "" =
      { instructions := "Analysis failed to produce instructions."
        styling := "No styling advice available."
        technicalJson := none } :=
  parseAnalysisResult_missing_labels "" (by decide) (by decide) (by decide)

/-- The extraction loop returns the first part carrying an inline payload,
phrased through `List.find?`. -/
lemma extractImageAux_eq_find (l : List Part) :
    extractImageAux l =
      (l.find? (fun p => p.inlineData.isSome)).bind
        (fun p => p.inlineData.map
          (fun d => "data:image/png;base64," ++ d.data)) := by
  induction l with
  | nil => rfl
  | cons p rest ih =>
    cases hd : p.inlineData with
    | some d => simp [extractImageAux, List.find?, hd]
    | none => simp [extractImageAux, List.find?, hd, ih]

/-- C9: `extractImage` returns `null` on a response with no candidates;
when the first candidate's parts contain an inline payload it returns the
first such part wrapped as a base64 data URI; in particular a first part
with MIME `image/png` and content `"QQ=="` yields exactly
`"data:image/png;base64,QQ=="`. -/
theorem extractImage_firstInline :
    (∀ r : GenResponse, r.candidates = [] → extractImage r = none) ∧
    (∀ (r : GenResponse) (p : Part) (d : InlineData),
      (partsOf r).find? (fun q => q.inlineData.isSome) = some p →
      p.inlineData = some d →
      extractImage r = some ("data:image/png;base64," ++ d.data)) ∧
    extractImage pngResponse = some "data:image/png;base64,QQ==" := by
  refine ⟨?_, ?_, by decide⟩
  · intro r h
    rw [extractImage, partsOf, h]
    rfl
  · intro r p d hf hd
    rw [extractImage, extractImageAux_eq_find, hf]
    simp [hd]

/-- C9 witness: the theorem applied to the concrete empty-candidate
response and to the concrete PNG response. -/
theorem extractImage_firstInline_witness :
    extractImage { candidates := [] } = none ∧
    extractImage pngResponse = some ("data:image/png;base64," ++ "QQ==") :=
  ⟨extractImage_firstInline.1 { candidates := [] } rfl,
   extractImage_firstInline.2.1 pngResponse pngPart
     { mimeType := "image/png", data := "QQ==" } (by decide) rfl⟩

/-- Rewriting declared MIME types leaves the extracted part list's payload
status and data untouched, so the loop result is unchanged. -/
lemma extractImageAux_mapMime (g : String → String) (l : List Part) :
    extractImageAux (l.map (mapMimePart g)) = extractImageAux l := by
  induction l with
  | nil => rfl
  | cons p rest ih =>
    cases hd : p.inlineData with
    | some d => simp [extractImageAux, mapMimePart, hd]
    | none => simp [extractImageAux, mapMimePart, hd, ih]

/-- Rewriting MIME types commutes with selecting the first candidate's
parts. -/
lemma partsOf_mapMime (g : String → String) (r : GenResponse) :
    partsOf (mapMimeResponse g r) = (partsOf r).map (mapMimePart g) := by
  obtain ⟨cands⟩ := r
  cases cands with
  | nil => rfl
  | cons c cs =>
    obtain ⟨ct⟩ := c
    cases ct with
    | none => rfl
    | some content => rfl

/-- C10 (implicit): `extractImage` never reads the declared MIME type —
its result is invariant under rewriting every `mimeType` field — and it
always forces `image/png` in the returned data URI: a first part with any
declared MIME type `m` and data `dat` yields
`"data:image/png;base64," ++ dat`; in particular a declared `image/jpeg`
payload still comes back labelled `image/png`. -/
theorem extractImage_forces_png :
    (∀ (g : String → String) (r : GenResponse),
      extractImage (mapMimeResponse g r) = extractImage r) ∧
    (∀ (m dat : String) (t : Option String) (rest : List Part)
      (cs : List Candidate),
      extractImage
        { candidates :=
            { content := some { parts :=
                { text := t, inlineData := some { mimeType := m, data := dat } }
                  :: rest } } :: cs } =
        some ("data:image/png;base64," ++ dat)) ∧
    extractImage jpegResponse = some "data:image/png;base64,QQ==" := by
  refine ⟨?_, ?_, by decide⟩
  · intro g r
    rw [extractImage, extractImage, partsOf_mapMime, extractImageAux_mapMime]
  · intro m dat t rest cs
    rfl


/-- A disjunct of the capability-error condition makes the trigger fire. -/
lemma isCapabilityError_of (e : ApiError)
    (h : e.status = some 403 ∨ e.code = some 403 ∨
      msgIncludes e "PERMISSION_DENIED" = true ∨
      e.status = some 404 ∨ e.code = some 404 ∨
      msgIncludes e "not found" = true) :
    isCapabilityError e = true := by
  rcases h with h | h | h | h | h | h <;> simp [isCapabilityError, h]

/-- In the triggered branch, the `catch` handler issues exactly the one
fallback request, whatever its outcome. -/
lemma genCatch_log_of_trigger (api : GenRequest → ApiOutcome)
    (prompt img : String) (ar : AspectRatio) (e : ApiError)
    (htrig : isCapabilityError e = true) :
    (genCatch api prompt img ar e).2 = [fallbackGenRequest prompt img ar] := by
  rw [genCatch, if_pos htrig]
  cases api (fallbackGenRequest prompt img ar) with
  | success resp2 => cases hext : extractImage resp2 <;> simp [hext]
  | failure e2 => rfl

/-- C1: when the primary image-generation call fails with status/code 403
or 404, or with a message containing "PERMISSION_DENIED" or "not found",
the secondary model is invoked exactly once, with the same content parts
(prompt text plus user image) and a configuration carrying only the
aspect ratio — the quality knob is dropped. -/
theorem generateTryOnImage_fallback_once (api : GenRequest → ApiOutcome)
    (prompt img : String) (ar : AspectRatio) (size : ImageSize) (e : ApiError)
    (hfail : api (primaryGenRequest prompt img ar size) = .failure e)
    (htrig : e.status = some 403 ∨ e.code = some 403 ∨
      msgIncludes e "PERMISSION_DENIED" = true ∨
      e.status = some 404 ∨ e.code = some 404 ∨
      msgIncludes e "not found" = true) :
    (generateTryOnImage api prompt img ar size).2 =
      [primaryGenRequest prompt img ar size, fallbackGenRequest prompt img ar] ∧
    ((generateTryOnImage api prompt img ar size).2.filter
      (fun r => r.model == "gemini-2.5-flash-image")).length = 1 ∧
    (fallbackGenRequest prompt img ar).parts =
      (primaryGenRequest prompt img ar size).parts ∧
    (fallbackGenRequest prompt img ar).config =
      { aspectRatio := ar, imageSize := none } := by
  have htrigb := isCapabilityError_of e htrig
  have hlog : (generateTryOnImage api prompt img ar size).2 =
      [primaryGenRequest prompt img ar size, fallbackGenRequest prompt img ar] := by
    rw [generateTryOnImage, hfail]
    show primaryGenRequest prompt img ar size ::
      (genCatch api prompt img ar e).2 = _
    rw [genCatch_log_of_trigger api prompt img ar e htrigb]
  refine ⟨hlog, ?_, rfl, rfl⟩
  rw [hlog]
  simp [primaryGenRequest, fallbackGenRequest]

/-- C1 witness: the fallback-once property at a concrete 403 failure. -/
theorem generateTryOnImage_fallback_once_witness :
    (generateTryOnImage apiGenFail403 "p" "u" AspectRatio.SQUARE ImageSize.K1).2 =
      [primaryGenRequest "p" "u" AspectRatio.SQUARE ImageSize.K1,
       fallbackGenRequest "p" "u" AspectRatio.SQUARE] ∧
    ((generateTryOnImage apiGenFail403 "p" "u" AspectRatio.SQUARE ImageSize.K1).2.filter
      (fun r => r.model == "gemini-2.5-flash-image")).length = 1 ∧
    (fallbackGenRequest "p" "u" AspectRatio.SQUARE).parts =
      (primaryGenRequest "p" "u" AspectRatio.SQUARE ImageSize.K1).parts ∧
    (fallbackGenRequest "p" "u" AspectRatio.SQUARE).config =
      { aspectRatio := AspectRatio.SQUARE, imageSize := none } :=
  generateTryOnImage_fallback_once apiGenFail403 "p" "u" AspectRatio.SQUARE
    ImageSize.K1 err403 rfl (Or.inl rfl)

/-- C2 counterexample: a primary success whose response yields no
extractable image does NOT trigger the fallback — the secondary model is
invoked zero times (not once) and the synthetic "No image generated from
Gemini 3 Pro" error is the terminal result. -/
theorem generateTryOnImage_emptySuccess_no_fallback :
    extractImage { candidates := [] } = none ∧
    ((generateTryOnImage apiEmptySuccess "p" "u" AspectRatio.SQUARE ImageSize.K1).2.filter
      (fun r => r.model == "gemini-2.5-flash-image")).length = 0 ∧
    (generateTryOnImage apiEmptySuccess "p" "u" AspectRatio.SQUARE ImageSize.K1).1 =
      .error noImageError := by
  refine ⟨rfl, ?_, ?_⟩ <;> decide

/-- C2 amended: a primary success with `extractImage = null` is rethrown
as the synthetic `noImageError`, whose status, code and message match none
of the fallback trigger clauses, so the call terminates with that error
and the secondary model is never invoked. -/
theorem generateTryOnImage_emptySuccess_propagates (api : GenRequest → ApiOutcome)
    (prompt img : String) (ar : AspectRatio) (size : ImageSize) (resp : GenResponse)
    (hsucc : api (primaryGenRequest prompt img ar size) = .success resp)
    (hempty : extractImage resp = none) :
    generateTryOnImage api prompt img ar size =
      (.error noImageError, [primaryGenRequest prompt img ar size]) := by
  have hcatch : genCatch api prompt img ar noImageError = (.error noImageError, []) := by
    rw [genCatch, if_neg ?_]
    decide
  rw [generateTryOnImage, hsucc]
  simp only [hempty]
  rw [hcatch]

/-- C2 amended witness: evaluated on the concrete all-success oracle whose
responses carry no candidates. -/
theorem generateTryOnImage_emptySuccess_propagates_witness :
    generateTryOnImage apiEmptySuccess "p" "u" AspectRatio.SQUARE ImageSize.K1 =
      (.error noImageError, [primaryGenRequest "p" "u" AspectRatio.SQUARE ImageSize.K1]) :=
  generateTryOnImage_emptySuccess_propagates apiEmptySuccess "p" "u"
    AspectRatio.SQUARE ImageSize.K1 { candidates := [] } rfl rfl

/-- C3: a primary failure matching none of the trigger clauses (neither
status nor code 403/404, no "PERMISSION_DENIED" and no "not found" in the
message) never invokes the secondary model, and the terminal result is the
primary failure propagated unchanged. -/
theorem generateTryOnImage_nontrigger_propagates (api : GenRequest → ApiOutcome)
    (prompt img : String) (ar : AspectRatio) (size : ImageSize) (e : ApiError)
    (hfail : api (primaryGenRequest prompt img ar size) = .failure e)
    (h403s : e.status ≠ some 403) (h403c : e.code ≠ some 403)
    (hpd : msgIncludes e "PERMISSION_DENIED" = false)
    (h404s : e.status ≠ some 404) (h404c : e.code ≠ some 404)
    (hnf : msgIncludes e "not found" = false) :
    generateTryOnImage api prompt img ar size =
      (.error e, [primaryGenRequest prompt img ar size]) ∧
    ((generateTryOnImage api prompt img ar size).2.filter
      (fun r => r.model == "gemini-2.5-flash-image")).length = 0 := by
  have htrigb : isCapabilityError e = false := by
    simp [isCapabilityError, h403s, h403c, hpd, h404s, h404c, hnf]
  have hcatch : genCatch api prompt img ar e = (.error e, []) := by
    rw [genCatch, if_neg (by simp [htrigb])]
  have hres : generateTryOnImage api prompt img ar size =
      (.error e, [primaryGenRequest prompt img ar size]) := by
    rw [generateTryOnImage, hfail]
    show ((genCatch api prompt img ar e).1,
      primaryGenRequest prompt img ar size :: (genCatch api prompt img ar e).2) = _
    rw [hcatch]
  refine ⟨hres, ?_⟩
  rw [hres]
  simp [primaryGenRequest]

/-- C3 witness: no fallback and unchanged propagation at a concrete 400
failure. -/
theorem generateTryOnImage_nontrigger_propagates_witness :
    generateTryOnImage apiGenFail400 "p" "u" AspectRatio.SQUARE ImageSize.K1 =
      (.error err400, [primaryGenRequest "p" "u" AspectRatio.SQUARE ImageSize.K1]) ∧
    ((generateTryOnImage apiGenFail400 "p" "u" AspectRatio.SQUARE ImageSize.K1).2.filter
      (fun r => r.model == "gemini-2.5-flash-image")).length = 0 :=
  generateTryOnImage_nontrigger_propagates apiGenFail400 "p" "u"
    AspectRatio.SQUARE ImageSize.K1 err400 rfl (by decide) (by decide)
    (by decide) (by decide) (by decide) (by decide)

/-- C4 counterexample: in the frontend service's `chatWithBot` a primary
failure with status 404 does NOT invoke the secondary model (zero
invocations, not one): the 404 propagates as the terminal failure. -/
theorem chatWithBot_404_no_fallback :
    ((chatWithBot apiChat404 [] "hello" false false).2.filter
      (fun r => r.model == "gemini-2.5-flash")).length = 0 ∧
    (chatWithBot apiChat404 [] "hello" false false).1 = .error err404 := by
  refine ⟨?_, ?_⟩ <;> decide

/-- C4 amended: the frontend `chatWithBot` falls back exactly once — with
the same contents, the search tool preserved and the thinking budget
dropped — only when the primary failure has status/code 403 or a message
containing "PERMISSION_DENIED"; every other failure (404 and "not found"
included) propagates with no secondary attempt. The backend chat handlers
(`src/server.js`, `src/api/chat.js`) use the wider trigger that also
covers 404 and "not found", and otherwise propagate unchanged. -/
theorem chat_fallback_policy :
    (∀ (api : ChatRequest → ChatOutcome) (history : List ChatTurn)
       (message : String) (useSearch useThinking : Bool) (e : ApiError),
      api (primaryChatRequest history message useSearch useThinking) = .failure e →
      (e.status = some 403 ∨ e.code = some 403 ∨
        msgIncludes e "PERMISSION_DENIED" = true) →
      (chatWithBot api history message useSearch useThinking).2 =
        [primaryChatRequest history message useSearch useThinking,
         fallbackChatRequest history message useSearch] ∧
      ((chatWithBot api history message useSearch useThinking).2.filter
        (fun r => r.model == "gemini-2.5-flash")).length = 1 ∧
      (fallbackChatRequest history message useSearch).contents =
        (primaryChatRequest history message useSearch useThinking).contents ∧
      (fallbackChatRequest history message useSearch).config =
        { tools := if useSearch then some [ChatTool.googleSearch] else none
          thinkingConfig := none }) ∧
    (∀ (api : ChatRequest → ChatOutcome) (history : List ChatTurn)
       (message : String) (useSearch useThinking : Bool) (e : ApiError),
      api (primaryChatRequest history message useSearch useThinking) = .failure e →
      isCapabilityError403 e = false →
      chatWithBot api history message useSearch useThinking =
        (.error e, [primaryChatRequest history message useSearch useThinking])) ∧
    (∀ (api : ChatRequest → ChatOutcome) (history : List ChatTurn)
       (message : String) (useSearch useThinking : Bool) (e : ApiError),
      api (primaryChatRequest history message useSearch useThinking) = .failure e →
      (e.status = some 403 ∨ e.code = some 403 ∨
        msgIncludes e "PERMISSION_DENIED" = true ∨
        e.status = some 404 ∨ e.code = some 404 ∨
        msgIncludes e "not found" = true) →
      (serverChatHandler api history message useSearch useThinking).2 =
        [primaryChatRequest history message useSearch useThinking,
         fallbackChatRequest history message useSearch]) ∧
    (∀ (api : ChatRequest → ChatOutcome) (history : List ChatTurn)
       (message : String) (useSearch useThinking : Bool) (e : ApiError),
      api (primaryChatRequest history message useSearch useThinking) = .failure e →
      isCapabilityError e = false →
      serverChatHandler api history message useSearch useThinking =
        (.error e, [primaryChatRequest history message useSearch useThinking])) := by
  refine ⟨?_, ?_, ?_, ?_⟩
  · intro api history message useSearch useThinking e hfail htrig
    have htrigb : isCapabilityError403 e = true := by
      rcases htrig with h | h | h <;> simp [isCapabilityError403, h]
    have hlog : (chatWithBot api history message useSearch useThinking).2 =
        [primaryChatRequest history message useSearch useThinking,
         fallbackChatRequest history message useSearch] := by
      rw [chatWithBot, hfail]
      simp only [htrigb, if_true]
      cases api (fallbackChatRequest history message useSearch) <;> rfl
    refine ⟨hlog, ?_, rfl, rfl⟩
    rw [hlog]
    simp [primaryChatRequest, fallbackChatRequest]
  · intro api history message useSearch useThinking e hfail htrigb
    rw [chatWithBot, hfail]
    simp only [htrigb, Bool.false_eq_true, if_false]
  · intro api history message useSearch useThinking e hfail htrig
    have htrigb := isCapabilityError_of e htrig
    rw [serverChatHandler, hfail]
    simp only [htrigb, if_true]
    cases api (fallbackChatRequest history message useSearch) <;> rfl
  · intro api history message useSearch useThinking e hfail htrigb
    rw [serverChatHandler, hfail]
    simp only [htrigb, Bool.false_eq_true, if_false]

/-- C4 amended witness: the frontend fallback at a concrete 403 failure
together with the backend fallback at a concrete 404 failure. -/
theorem chat_fallback_policy_witness :
    ((chatWithBot apiChat403 [] "m" false false).2 =
      [primaryChatRequest [] "m" false false, fallbackChatRequest [] "m" false] ∧
     ((chatWithBot apiChat403 [] "m" false false).2.filter
       (fun r => r.model == "gemini-2.5-flash")).length = 1 ∧
     (fallbackChatRequest [] "m" false).contents =
       (primaryChatRequest [] "m" false false).contents ∧
     (fallbackChatRequest [] "m" false).config =
       { tools := if false then some [ChatTool.googleSearch] else none
         thinkingConfig := none }) ∧
    (serverChatHandler apiChat404 [] "m" false false).2 =
      [primaryChatRequest [] "m" false false, fallbackChatRequest [] "m" false] :=
  ⟨chat_fallback_policy.1 apiChat403 [] "m" false false err403 rfl (Or.inl rfl),
   chat_fallback_policy.2.2.1 apiChat404 [] "m" false false err404 rfl
     (Or.inr (Or.inr (Or.inr (Or.inl rfl))))⟩

/-- C5: in the try-on pipeline a failed analyze stage surfaces the
analysis failure with zero invocations of the generation capability;
generation happens only after a successful analysis, exactly once, with
the parsed `instructions` field as its prompt. -/
theorem handleGenerateProcess_analyze_gates_generation :
    (∀ (generate : String → Except ApiError String) (e : ApiError),
      handleGenerateProcess (.error e) generate = (.error e, [])) ∧
    (∀ (generate : String → Except ApiError String) (raw : String),
      (handleGenerateProcess (.ok raw) generate).2 =
        [(parseAnalysisResult raw).instructions]) := by
  refine ⟨fun generate e => rfl, fun generate raw => ?_⟩
  rw [handleGenerateProcess]
  cases generate (parseAnalysisResult raw).instructions <;> rfl


/-- Round-to-nearest-even fixes integers. -/
lemma rne_int (m : ℤ) : rne (m : ℚ) = m := by
  simp [rne]

/-- Round-to-nearest-even rounds down below the midpoint. -/
lemma rne_low (x : ℚ) (f : ℤ) (h1 : (f : ℚ) ≤ x) (h2 : x < (f : ℚ) + 1/2) :
    rne x = f := by
  have hf : ⌊x⌋ = f := Int.floor_eq_iff.mpr ⟨h1, by linarith⟩
  rw [rne, hf, if_pos (by linarith)]

/-- Round-to-nearest-even rounds up above the midpoint. -/
lemma rne_high (x : ℚ) (f : ℤ) (h1 : (f : ℚ) + 1/2 < x) (h2 : x < (f : ℚ) + 1) :
    rne x = f + 1 := by
  have hf : ⌊x⌋ = f := Int.floor_eq_iff.mpr ⟨by linarith, by linarith⟩
  rw [rne, hf, if_neg (by linarith), if_pos (by linarith)]

/-- The binade bounds determine `Int.log 2`. -/
lemma log2_eq_of (x : ℚ) (e : ℤ) (h1 : 0 < x) (h2 : (2:ℚ) ^ e ≤ x)
    (h3 : x < 2 ^ (e + 1)) : Int.log 2 x = e := by
  have ha : (2:ℚ) ^ Int.log 2 x ≤ x := Int.zpow_log_le_self (by norm_num) h1
  have hb : x < (2:ℚ) ^ (Int.log 2 x + 1) := Int.lt_zpow_succ_log_self (by norm_num) x
  have h5 : e < Int.log 2 x + 1 :=
    (zpow_lt_zpow_iff_right₀ (by norm_num : (1:ℚ) < 2)).mp (lt_of_le_of_lt h2 hb)
  have h6 : Int.log 2 x < e + 1 :=
    (zpow_lt_zpow_iff_right₀ (by norm_num : (1:ℚ) < 2)).mp (lt_of_le_of_lt ha h3)
  omega

/-- Evaluation rule for `floatRound` on a positive value with known binade
and known rounding of its scaled significand. -/
lemma floatRound_eval (x : ℚ) (e n : ℤ) (h1 : 0 < x) (h2 : (2:ℚ) ^ e ≤ x)
    (h3 : x < 2 ^ (e + 1)) (hrne : rne (x * 2 ^ ((52 : ℤ) - e)) = n) :
    floatRound x = (n : ℚ) * 2 ^ (e - 52) := by
  rw [floatRound, if_neg (ne_of_gt h1), if_neg (not_lt.mpr h1.le), abs_of_pos h1,
    log2_eq_of x e h1 h2 h3, hrne, one_mul]

/-- Zero rounds to zero. -/
lemma floatRound_zero : floatRound 0 = 0 := by
  rw [floatRound, if_pos rfl]

/-- Binary64 rounding commutes with negation (the significand and
exponent of `-x` are those of `x`). -/
lemma floatRound_neg (x : ℚ) : floatRound (-x) = - floatRound x := by
  rcases lt_trichotomy x 0 with hx | hx | hx
  · rw [floatRound, floatRound, if_neg (neg_ne_zero.mpr (ne_of_lt hx)),
      if_neg (ne_of_lt hx), if_neg (by linarith : ¬ -x < 0), if_pos hx, abs_neg]
    ring
  · rw [hx, neg_zero, floatRound_zero, neg_zero]
  · rw [floatRound, floatRound, if_neg (neg_ne_zero.mpr (ne_of_gt hx)),
      if_neg (ne_of_gt hx), if_pos (by linarith : -x < 0),
      if_neg (by linarith : ¬ x < 0), abs_neg]
    ring

/-- Every dyadic rational `m / 2 ^ 52` with `0 < m < 2 ^ 53` is exactly
representable in binary64, so rounding fixes it. -/
lemma floatRound_fix (m : ℤ) (hm : 0 < m) (hm2 : m < 9007199254740992) :
    floatRound ((m : ℚ) / 4503599627370496) = (m : ℚ) / 4503599627370496 := by
  have hx' : ((m : ℚ) / 4503599627370496) = (m : ℚ) * 2 ^ (-52 : ℤ) := by
    rw [show ((2:ℚ) ^ (-52 : ℤ)) = 1/4503599627370496 by norm_num]
    ring
  rw [hx']
  set x : ℚ := (m : ℚ) * 2 ^ (-52 : ℤ) with hx
  have hm0 : (0:ℚ) < (m:ℚ) := by exact_mod_cast hm
  have hx0 : 0 < x := by
    rw [hx]
    exact mul_pos hm0 (by positivity)
  set L := Int.log 2 x with hL
  have ha : (2:ℚ) ^ L ≤ x := Int.zpow_log_le_self (by norm_num) hx0
  have hb : x < (2:ℚ) ^ (L + 1) := Int.lt_zpow_succ_log_self (by norm_num) x
  have hxlt : x < (2:ℚ) ^ (1:ℤ) := by
    rw [hx]
    have hmq : (m:ℚ) < 9007199254740992 := by exact_mod_cast hm2
    calc (m:ℚ) * 2 ^ (-52:ℤ) < 9007199254740992 * 2 ^ (-52:ℤ) :=
          mul_lt_mul_of_pos_right hmq (by positivity)
      _ = (2:ℚ) ^ (1:ℤ) := by norm_num
  have hL1 : L < 1 :=
    (zpow_lt_zpow_iff_right₀ (by norm_num : (1:ℚ) < 2)).mp (lt_of_le_of_lt ha hxlt)
  have hLn : 0 ≤ -L := by omega
  have harg : x * 2 ^ ((52:ℤ) - L) = ((m * 2 ^ (-L).toNat : ℤ) : ℚ) := by
    push_cast
    rw [← zpow_natCast (2:ℚ) (-L).toNat, Int.toNat_of_nonneg hLn, hx, mul_assoc,
      ← zpow_add₀ (by norm_num : (2:ℚ) ≠ 0),
      show ((-52 : ℤ) + (52 - L)) = -L by ring]
  have heval := floatRound_eval x L (m * 2 ^ (-L).toNat) hx0 ha hb
    (by rw [harg, rne_int])
  rw [heval]
  push_cast
  rw [← zpow_natCast (2:ℚ) (-L).toNat, Int.toNat_of_nonneg hLn, mul_assoc,
    ← zpow_add₀ (by norm_num : (2:ℚ) ≠ 0), show (-L + (L - 52) : ℤ) = -52 by ring]

/-- The double quotient 7/6 rounds up: its scaled significand has
fractional part 2/3. -/
lemma fpDiv_seven_six :
    fpDiv 7 6 = 5254199565265579 / 4503599627370496 := by
  rw [fpDiv]
  have h := floatRound_eval (7/6) 0 5254199565265579 (by norm_num) (by norm_num)
    (by norm_num)
    (by
      rw [show ((7:ℚ)/6 * 2 ^ ((52:ℤ) - 0)) = 31525197391593472/6 by norm_num,
        show (5254199565265579 : ℤ) = 5254199565265578 + 1 by norm_num]
      exact rne_high _ 5254199565265578 (by norm_num) (by norm_num))
  rw [h]
  norm_num

/-- The double quotient 4/3 rounds down: its scaled significand has
fractional part 1/3. -/
lemma floatRound_four_thirds :
    floatRound ((4:ℚ)/3) = 6004799503160661 / 4503599627370496 := by
  have h := floatRound_eval (4/3) 0 6004799503160661 (by norm_num) (by norm_num)
    (by norm_num)
    (by
      rw [show ((4:ℚ)/3 * 2 ^ ((52:ℤ) - 0)) = 18014398509481984/3 by norm_num]
      exact rne_low _ 6004799503160661 (by norm_num) (by norm_num))
  rw [h]
  norm_num

/-- The target literal `4/3` as a double. -/
lemma fpDiv_four_three :
    fpDiv 4 3 = 6004799503160661 / 4503599627370496 := by
  rw [fpDiv]
  exact floatRound_four_thirds

/-- The target literal `3/4` is exactly representable. -/
lemma fpDiv_three_four : fpDiv 3 4 = 3/4 := by
  rw [fpDiv, show (3:ℚ)/4 = ((3377699720527872 : ℤ):ℚ)/4503599627370496 by norm_num,
    floatRound_fix 3377699720527872 (by norm_num) (by norm_num)]

/-- The target literal `9/16` is exactly representable. -/
lemma fpDiv_nine_sixteen : fpDiv 9 16 = 9/16 := by
  rw [fpDiv, show (9:ℚ)/16 = ((2533274790395904 : ℤ):ℚ)/4503599627370496 by norm_num,
    floatRound_fix 2533274790395904 (by norm_num) (by norm_num)]

/-- The target literal `16/9` as a double (rounds down, fractional part
4/9). -/
lemma fpDiv_sixteen_nine :
    fpDiv 16 9 = 2001599834386887/1125899906842624 := by
  rw [fpDiv]
  have h := floatRound_eval (16/9) 0 8006399337547548 (by norm_num) (by norm_num)
    (by norm_num)
    (by
      rw [show ((16:ℚ)/9 * 2 ^ ((52:ℤ) - 0)) = 72057594037927936/9 by norm_num]
      exact rne_low _ 8006399337547548 (by norm_num) (by norm_num))
  rw [h]
  norm_num

/-- The quotient of the concrete dimensions (1000, 1000). -/
lemma fpDiv_1000_1000 : fpDiv 1000 1000 = 1 := by
  rw [fpDiv, show (1000:ℚ)/1000 = ((4503599627370496 : ℤ):ℚ)/4503599627370496 by norm_num,
    floatRound_fix 4503599627370496 (by norm_num) (by norm_num)]
  norm_num

/-- The quotient of the concrete dimensions (1080, 1920) is the exactly
representable 9/16. -/
lemma fpDiv_1080_1920 : fpDiv 1080 1920 = 9/16 := by
  rw [fpDiv, show (1080:ℚ)/1920 = ((2533274790395904 : ℤ):ℚ)/4503599627370496 by norm_num,
    floatRound_fix 2533274790395904 (by norm_num) (by norm_num)]
  norm_num

/-- The quotient of the concrete dimensions (800, 600) is the double
nearest 4/3. -/
lemma fpDiv_800_600 :
    fpDiv 800 600 = 6004799503160661 / 4503599627370496 := by
  rw [fpDiv, show (800:ℚ)/600 = (4:ℚ)/3 by norm_num]
  exact floatRound_four_thirds

/-- Double distances from ratio 1 (all five differences are exactly
representable). -/
lemma fpSub_at_one :
    fpSub 1 1 = 0 ∧
    fpSub (3/4) 1 = -(1/4 : ℚ) ∧
    fpSub (9/16) 1 = -(7/16 : ℚ) ∧
    fpSub (6004799503160661/4503599627370496) 1 =
      1501199875790165/4503599627370496 ∧
    fpSub (2001599834386887/1125899906842624) 1 =
      875699927544263/1125899906842624 := by
  refine ⟨by rw [fpSub, sub_self, floatRound_zero], ?_, ?_, ?_, ?_⟩
  · rw [fpSub, show (3:ℚ)/4 - 1 =
      -(((1125899906842624 : ℤ):ℚ)/4503599627370496) by norm_num, floatRound_neg,
      floatRound_fix 1125899906842624 (by norm_num) (by norm_num)]
    norm_num
  · rw [fpSub, show (9:ℚ)/16 - 1 =
      -(((1970324836974592 : ℤ):ℚ)/4503599627370496) by norm_num, floatRound_neg,
      floatRound_fix 1970324836974592 (by norm_num) (by norm_num)]
    norm_num
  · rw [fpSub, show (6004799503160661:ℚ)/4503599627370496 - 1 =
      (((1501199875790165 : ℤ):ℚ)/4503599627370496) by norm_num,
      floatRound_fix 1501199875790165 (by norm_num) (by norm_num)]
    norm_num
  · rw [fpSub, show (2001599834386887:ℚ)/1125899906842624 - 1 =
      (((3502799710177052 : ℤ):ℚ)/4503599627370496) by norm_num,
      floatRound_fix 3502799710177052 (by norm_num) (by norm_num)]
    norm_num

/-- Double distances from ratio 9/16. -/
lemma fpSub_at_nine_sixteenths :
    fpSub 1 (9/16) = 7/16 ∧
    fpSub (3/4) (9/16) = 3/16 ∧
    fpSub (9/16) (9/16) = 0 ∧
    fpSub (6004799503160661/4503599627370496) (9/16) =
      3471524712764757/4503599627370496 ∧
    fpSub (2001599834386887/1125899906842624) (9/16) =
      1368281136787911/1125899906842624 := by
  refine ⟨?_, ?_, by rw [fpSub, sub_self, floatRound_zero], ?_, ?_⟩
  · rw [fpSub, show (1:ℚ) - 9/16 =
      (((1970324836974592 : ℤ):ℚ)/4503599627370496) by norm_num,
      floatRound_fix 1970324836974592 (by norm_num) (by norm_num)]
    norm_num
  · rw [fpSub, show (3:ℚ)/4 - 9/16 =
      (((844424930131968 : ℤ):ℚ)/4503599627370496) by norm_num,
      floatRound_fix 844424930131968 (by norm_num) (by norm_num)]
    norm_num
  · rw [fpSub, show (6004799503160661:ℚ)/4503599627370496 - 9/16 =
      (((3471524712764757 : ℤ):ℚ)/4503599627370496) by norm_num,
      floatRound_fix 3471524712764757 (by norm_num) (by norm_num)]
    norm_num
  · rw [fpSub, show (2001599834386887:ℚ)/1125899906842624 - 9/16 =
      (((5473124547151644 : ℤ):ℚ)/4503599627370496) by norm_num,
      floatRound_fix 5473124547151644 (by norm_num) (by norm_num)]
    norm_num

/-- Double distances from the ratio fl(4/3). -/
lemma fpSub_at_four_thirds :
    fpSub 1 (6004799503160661/4503599627370496) =
      -(1501199875790165/4503599627370496 : ℚ) ∧
    fpSub (3/4) (6004799503160661/4503599627370496) =
      -(2627099782632789/4503599627370496 : ℚ) ∧
    fpSub (9/16) (6004799503160661/4503599627370496) =
      -(3471524712764757/4503599627370496 : ℚ) ∧
    fpSub (6004799503160661/4503599627370496) (6004799503160661/4503599627370496) = 0 ∧
    fpSub (2001599834386887/1125899906842624) (6004799503160661/4503599627370496) =
      2001599834386887/4503599627370496 := by
  refine ⟨?_, ?_, ?_, by rw [fpSub, sub_self, floatRound_zero], ?_⟩
  · rw [fpSub, show (1:ℚ) - 6004799503160661/4503599627370496 =
      -(((1501199875790165 : ℤ):ℚ)/4503599627370496) by norm_num, floatRound_neg,
      floatRound_fix 1501199875790165 (by norm_num) (by norm_num)]
    norm_num
  · rw [fpSub, show (3:ℚ)/4 - 6004799503160661/4503599627370496 =
      -(((2627099782632789 : ℤ):ℚ)/4503599627370496) by norm_num, floatRound_neg,
      floatRound_fix 2627099782632789 (by norm_num) (by norm_num)]
    norm_num
  · rw [fpSub, show (9:ℚ)/16 - 6004799503160661/4503599627370496 =
      -(((3471524712764757 : ℤ):ℚ)/4503599627370496) by norm_num, floatRound_neg,
      floatRound_fix 3471524712764757 (by norm_num) (by norm_num)]
    norm_num
  · rw [fpSub, show (2001599834386887:ℚ)/1125899906842624 -
        6004799503160661/4503599627370496 =
      (((2001599834386887 : ℤ):ℚ)/4503599627370496) by norm_num,
      floatRound_fix 2001599834386887 (by norm_num) (by norm_num)]
    norm_num

/-- Double distances from the ratio fl(7/6). The distance to fl(4/3) is
strictly SMALLER than the distance to 1, although the exact distances
tie: fl(7/6) rounded up while fl(4/3) rounded down. -/
lemma fpSub_at_seven_sixths :
    fpSub 1 (5254199565265579/4503599627370496) =
      -(750599937895083/4503599627370496 : ℚ) ∧
    fpSub (3/4) (5254199565265579/4503599627370496) =
      -(1876499844737707/4503599627370496 : ℚ) ∧
    fpSub (9/16) (5254199565265579/4503599627370496) =
      -(2720924774869675/4503599627370496 : ℚ) ∧
    fpSub (6004799503160661/4503599627370496) (5254199565265579/4503599627370496) =
      375299968947541/2251799813685248 ∧
    fpSub (2001599834386887/1125899906842624) (5254199565265579/4503599627370496) =
      2752199772281969/4503599627370496 := by
  refine ⟨?_, ?_, ?_, ?_, ?_⟩
  · rw [fpSub, show (1:ℚ) - 5254199565265579/4503599627370496 =
      -(((750599937895083 : ℤ):ℚ)/4503599627370496) by norm_num, floatRound_neg,
      floatRound_fix 750599937895083 (by norm_num) (by norm_num)]
    norm_num
  · rw [fpSub, show (3:ℚ)/4 - 5254199565265579/4503599627370496 =
      -(((1876499844737707 : ℤ):ℚ)/4503599627370496) by norm_num, floatRound_neg,
      floatRound_fix 1876499844737707 (by norm_num) (by norm_num)]
    norm_num
  · rw [fpSub, show (9:ℚ)/16 - 5254199565265579/4503599627370496 =
      -(((2720924774869675 : ℤ):ℚ)/4503599627370496) by norm_num, floatRound_neg,
      floatRound_fix 2720924774869675 (by norm_num) (by norm_num)]
    norm_num
  · rw [fpSub, show (6004799503160661:ℚ)/4503599627370496 -
        5254199565265579/4503599627370496 =
      (((750599937895082 : ℤ):ℚ)/4503599627370496) by norm_num,
      floatRound_fix 750599937895082 (by norm_num) (by norm_num)]
    norm_num
  · rw [fpSub, show (2001599834386887:ℚ)/1125899906842624 -
        5254199565265579/4503599627370496 =
      (((2752199772281969 : ℤ):ℚ)/4503599627370496) by norm_num,
      floatRound_fix 2752199772281969 (by norm_num) (by norm_num)]
    norm_num

/-- The double-semantics classifier at (1000, 1000): ratio 1 is exact and
at distance 0 from the first target. -/
lemma getClosestAspectRatioFP_1000_1000 :
    getClosestAspectRatioFP 1000 1000 = AspectRatio.SQUARE := by
  obtain ⟨u1, u2, u3, u4, u5⟩ := fpSub_at_one
  norm_num [getClosestAspectRatioFP, aspectTargetsFP, closerToFP,
    List.foldl_cons, List.foldl_nil, fpDiv_1000_1000, fpDiv_three_four,
    fpDiv_nine_sixteen, fpDiv_four_three, fpDiv_sixteen_nine,
    u1, u2, u3, u4, u5, abs_of_nonneg, abs_of_nonpos]

/-- The double-semantics classifier at (1080, 1920): ratio 9/16 is exact
and at distance 0 from the 9:16 target. -/
lemma getClosestAspectRatioFP_1080_1920 :
    getClosestAspectRatioFP 1080 1920 = AspectRatio.PORTRAIT_9_16 := by
  obtain ⟨v1, v2, v3, v4, v5⟩ := fpSub_at_nine_sixteenths
  norm_num [getClosestAspectRatioFP, aspectTargetsFP, closerToFP,
    List.foldl_cons, List.foldl_nil, fpDiv_1080_1920, fpDiv_three_four,
    fpDiv_nine_sixteen, fpDiv_four_three, fpDiv_sixteen_nine,
    v1, v2, v3, v4, v5, abs_of_nonneg, abs_of_nonpos]

/-- The double-semantics classifier at (800, 600): the rounded ratio
coincides with the rounded 4/3 target. -/
lemma getClosestAspectRatioFP_800_600 :
    getClosestAspectRatioFP 800 600 = AspectRatio.LANDSCAPE_4_3 := by
  obtain ⟨w1, w2, w3, w4, w5⟩ := fpSub_at_four_thirds
  norm_num [getClosestAspectRatioFP, aspectTargetsFP, closerToFP,
    List.foldl_cons, List.foldl_nil, fpDiv_800_600, fpDiv_three_four,
    fpDiv_nine_sixteen, fpDiv_four_three, fpDiv_sixteen_nine,
    w1, w2, w3, w4, w5, abs_of_nonneg, abs_of_nonpos]

/-- The double-semantics classifier at (7, 6): rounding makes 4:3
strictly closer than 1:1, although the exact distances tie. -/
lemma getClosestAspectRatioFP_seven_six :
    getClosestAspectRatioFP 7 6 = AspectRatio.LANDSCAPE_4_3 := by
  obtain ⟨s1, s2, s3, s4, s5⟩ := fpSub_at_seven_sixths
  norm_num [getClosestAspectRatioFP, aspectTargetsFP, closerToFP,
    List.foldl_cons, List.foldl_nil, fpDiv_seven_six, fpDiv_three_four,
    fpDiv_nine_sixteen, fpDiv_four_three, fpDiv_sixteen_nine,
    s1, s2, s3, s4, s5, abs_of_nonneg, abs_of_nonpos]

/-- The JavaScript `reduce` with the double-semantics callback returns an
element of `acc :: l` whose double distance to `ratio` is minimal, and
every element strictly before it has strictly greater double distance. -/
lemma foldl_closerToFP_spec (ratio : ℚ) (l : List (AspectRatio × ℚ)) :
    ∀ acc : AspectRatio × ℚ,
    ∃ l1 l2, acc :: l = l1 ++ (l.foldl (closerToFP ratio) acc) :: l2 ∧
      (∀ t ∈ acc :: l,
        |fpSub (l.foldl (closerToFP ratio) acc).2 ratio| ≤ |fpSub t.2 ratio|) ∧
      (∀ t ∈ l1,
        |fpSub (l.foldl (closerToFP ratio) acc).2 ratio| < |fpSub t.2 ratio|) := by
  induction l with
  | nil =>
    intro acc
    exact ⟨[], [], rfl, by simp, by simp⟩
  | cons b t ih =>
    intro acc
    simp only [List.foldl_cons]
    by_cases hb : |fpSub b.2 ratio| < |fpSub acc.2 ratio|
    · have hstep : closerToFP ratio acc b = b := by
        rw [closerToFP, if_pos hb]
      rw [hstep]
      obtain ⟨l1, l2, hdec, hmin, hstrict⟩ := ih b
      refine ⟨acc :: l1, l2, ?_, ?_, ?_⟩
      · rw [List.cons_append, ← hdec]
      · intro x hx
        rcases List.mem_cons.mp hx with hx | hx
        · subst hx
          have h1 : |fpSub (t.foldl (closerToFP ratio) b).2 ratio| ≤ |fpSub b.2 ratio| :=
            hmin b (List.mem_cons_self b t)
          linarith
        · exact hmin x hx
      · intro x hx
        rcases List.mem_cons.mp hx with hx | hx
        · subst hx
          have h1 : |fpSub (t.foldl (closerToFP ratio) b).2 ratio| ≤ |fpSub b.2 ratio| :=
            hmin b (List.mem_cons_self b t)
          linarith
        · exact hstrict x hx
    · have hstep : closerToFP ratio acc b = acc := by
        rw [closerToFP, if_neg hb]
      rw [hstep]
      obtain ⟨l1, l2, hdec, hmin, hstrict⟩ := ih acc
      have hble : |fpSub acc.2 ratio| ≤ |fpSub b.2 ratio| := le_of_not_lt hb
      match l1, hdec with
      | [], hdec =>
        have hm : acc = t.foldl (closerToFP ratio) acc :=
          (List.cons.injEq _ _ _ _ ▸ hdec).1
        refine ⟨[], b :: t, ?_, ?_, ?_⟩
        · rw [List.nil_append, ← hm]
        · intro x hx
          rcases List.mem_cons.mp hx with hx | hx
          · subst hx
            exact hmin x (List.mem_cons_self x t)
          · rcases List.mem_cons.mp hx with hx | hx
            · subst hx
              rw [← hm]
              exact hble
            · exact hmin x (List.mem_cons_of_mem acc hx)
        · intro x hx
          simp at hx
      | a :: l1', hdec =>
        have ha : a = acc := ((List.cons.injEq _ _ _ _ ▸ hdec).1).symm
        subst ha
        have ht : t = l1' ++ (t.foldl (closerToFP ratio) a) :: l2 :=
          (List.cons.injEq _ _ _ _ ▸ hdec).2
        have hma : |fpSub (t.foldl (closerToFP ratio) a).2 ratio| < |fpSub a.2 ratio| :=
          hstrict a (List.mem_cons_self a l1')
        refine ⟨a :: b :: l1', l2, ?_, ?_, ?_⟩
        · rw [List.cons_append, List.cons_append, ← ht]
        · intro x hx
          rcases List.mem_cons.mp hx with hx | hx
          · subst hx
            exact le_of_lt hma
          · rcases List.mem_cons.mp hx with hx | hx
            · subst hx
              calc |fpSub (t.foldl (closerToFP ratio) a).2 ratio|
                  ≤ |fpSub a.2 ratio| := le_of_lt hma
                _ ≤ |fpSub x.2 ratio| := hble
            · exact hmin x (List.mem_cons_of_mem a hx)
        · intro x hx
          rcases List.mem_cons.mp hx with hx | hx
          · subst hx
            exact hma
          · rcases List.mem_cons.mp hx with hx | hx
            · subst hx
              calc |fpSub (t.foldl (closerToFP ratio) a).2 ratio|
                  < |fpSub a.2 ratio| := hma
                _ ≤ |fpSub x.2 ratio| := hble
            · exact hstrict x (List.mem_cons_of_mem a hx)

/-- C7 counterexample: at the positive dimensions (7, 6) the exact
distances from 7/6 to the targets 1 and 4/3 tie at 1/6, so the claimed
exact-arithmetic rule with first-candidate tie-break demands 1:1 — the
answer the exact-rational idealization indeed gives — but the source's
IEEE double arithmetic rounds fl(7/6) up and fl(4/3) down, the float
distance to 4/3 becomes strictly smaller, and the program returns 4:3,
not 1:1. -/
theorem getClosestAspectRatioFP_tie_counterexample :
    getClosestAspectRatioFP 7 6 = AspectRatio.LANDSCAPE_4_3 ∧
    getClosestAspectRatioFP 7 6 ≠ AspectRatio.SQUARE ∧
    |(1 : ℚ) - 7/6| = |4/3 - 7/6| ∧
    getClosestAspectRatio 7 6 = AspectRatio.SQUARE := by
  refine ⟨getClosestAspectRatioFP_seven_six, ?_, by norm_num, ?_⟩
  · rw [getClosestAspectRatioFP_seven_six]
    intro h
    exact AspectRatio.noConfusion h
  · norm_num [getClosestAspectRatio, aspectTargets, closerTo,
      List.foldl_cons, List.foldl_nil, abs_of_nonneg, abs_of_nonpos]

/-- C7 amended: under the source's IEEE binary64 arithmetic the
classifier returns exactly the enumeration member whose DOUBLE distance
|fl(target) - fl(width/height)| is smallest, with ties in the double
comparison won by the first candidate in enumeration order; exact-tie
inputs may be resolved differently than exact arithmetic would (see the
counterexample), while the three concrete examples are unaffected:
classify(1000,1000) = 1:1, classify(1080,1920) = 9:16 and
classify(800,600) = 4:3. -/
theorem getClosestAspectRatioFP_argmin_first :
    (∀ w h : ℚ, 0 < w → 0 < h →
      ∃ best l1 l2, aspectTargetsFP = l1 ++ best :: l2 ∧
        getClosestAspectRatioFP w h = best.1 ∧
        (∀ t ∈ aspectTargetsFP,
          |fpSub best.2 (fpDiv w h)| ≤ |fpSub t.2 (fpDiv w h)|) ∧
        (∀ t ∈ l1, |fpSub best.2 (fpDiv w h)| < |fpSub t.2 (fpDiv w h)|)) ∧
    getClosestAspectRatioFP 1000 1000 = AspectRatio.SQUARE ∧
    getClosestAspectRatioFP 1080 1920 = AspectRatio.PORTRAIT_9_16 ∧
    getClosestAspectRatioFP 800 600 = AspectRatio.LANDSCAPE_4_3 := by
  refine ⟨?_, getClosestAspectRatioFP_1000_1000, getClosestAspectRatioFP_1080_1920,
    getClosestAspectRatioFP_800_600⟩
  intro w h hw hh
  obtain ⟨l1, l2, hdec, hmin, hstrict⟩ :=
    foldl_closerToFP_spec (fpDiv w h)
      [(AspectRatio.PORTRAIT_3_4, fpDiv 3 4), (AspectRatio.PORTRAIT_9_16, fpDiv 9 16),
       (AspectRatio.LANDSCAPE_4_3, fpDiv 4 3), (AspectRatio.LANDSCAPE_16_9, fpDiv 16 9)]
      (AspectRatio.SQUARE, 1)
  exact ⟨_, l1, l2, hdec, rfl, hmin, hstrict⟩

/-- C7 amended witness: the double-semantics argmin property instantiated
at the concrete dimensions (1000, 1000). -/
theorem getClosestAspectRatioFP_argmin_first_witness :
    ∃ best l1 l2, aspectTargetsFP = l1 ++ best :: l2 ∧
      getClosestAspectRatioFP 1000 1000 = best.1 ∧
      (∀ t ∈ aspectTargetsFP,
        |fpSub best.2 (fpDiv 1000 1000)| ≤ |fpSub t.2 (fpDiv 1000 1000)|) ∧
      (∀ t ∈ l1, |fpSub best.2 (fpDiv 1000 1000)| < |fpSub t.2 (fpDiv 1000 1000)|) :=
  getClosestAspectRatioFP_argmin_first.1 1000 1000 (by norm_num) (by norm_num)


end Vibefit
